import Mathlib

/-!
Verification of `point_count_core.py`.

The development shallowly embeds the three parts of the program that the
specification talks about:

* `distance` — the Euclidean distance helper (floats are modelled as reals);
* `pointcount` — the grid-traversal measurement loop.  The interactive
  `draw_line` calls (two `ginput` clicks each) are modelled by a capture
  oracle `Caps : Nat → Option (Point × Point)`: the k-th call either yields
  the two endpoints or fails (`none`), covering both the `ValueError` and the
  generic-exception paths of the source, which are handled identically.
  The numpy result array is modelled as a list of rows of reals; `numpy`
  would raise on an out-of-bounds write, the embedding's `List.set` is a
  no-op there, and the in-bounds lemmas below show the loop never writes out
  of bounds, so the two agree on every reachable state;
* `create_save_file_names` — the output-name generator.  The filesystem is
  modelled by an existence oracle `isfile : String → Bool` standing for
  `os.path.isfile`.

Pure display side effects (figure creation, zooming, markers, text) have no
bearing on any claim and are not modelled.
-/

/-! ### Geometry: `distance` (source lines 96–98) -/

/-- A 2-D point, as produced by `plt.ginput` (a pair of floats). -/
abbrev Point : Type := ℝ × ℝ

/-- Source: `return np.sqrt((xy2[0]-xy1[0])**2 + (xy2[1]-xy1[1])**2)`. -/
noncomputable def distance (xy1 xy2 : Point) : ℝ :=
  Real.sqrt ((xy2.1 - xy1.1) ^ 2 + (xy2.2 - xy1.2) ^ 2)

/-! ### The grid traversal (source lines 136–139)

`for r in range(grid_spacing, h_im, grid_spacing):` /
`for c in range(grid_spacing, w_im, grid_spacing):` — `pyRange a b st`
models Python's `range(a, b, st)` for a positive step `st`. -/

/-- Python `range(start, stop, step)` for a positive `step`:
the list `start, start+step, ...` of all such values `< stop`. -/
def pyRange (start stop step : Nat) : List Nat :=
  List.range' start ((stop - start + step - 1) / step) step

/-- The traversal order of `pointcount`: rows `r` (outer loop, `y`), columns
`c` (inner loop, `x`), node recorded as `(x, y) = (c, r)`. -/
def gridNodes (s w h : Nat) : List (Nat × Nat) :=
  (pyRange s h s).flatMap (fun r => (pyRange s w s).map (fun c => (c, r)))

/-- Source line 118: `n_nodes = (w_im//grid_spacing) * (h_im//grid_spacing)`,
the pre-allocated row count of the result array. -/
def nNodes (s w h : Nat) : Nat :=
  (w / s) * (h / s)

/-! ### The result table (source line 119)

`sizes = np.zeros((n_nodes, 2+n_axes))`, modelled as a list of rows. -/

/-- A zero-filled row of the result array: `2 + n_axes` zeros. -/
noncomputable def zeroRow (nax : Nat) : List ℝ :=
  List.replicate (2 + nax) 0

/-- `sizes[i, j] = v` on the list-of-rows model (numpy raises out of
bounds; here `List.set` is a no-op there, and the loop stays in bounds). -/
def setEntry (t : List (List ℝ)) (i j : Nat) (v : ℝ) : List (List ℝ) :=
  t.set i ((t.getD i []).set j v)

/-! ### The measurement session (source lines 101–171) -/

/-- The interactive capture oracle: the result of the k-th `draw_line()`
call.  `none` models any exception raised during the pick (the
`ValueError` of unpacking, or a closed window). -/
def Caps : Type := Nat → Option (Point × Point)

/-- Number of `draw_line` calls made per grid node (source lines 147–151):
two when `n_axes == 2`, otherwise one. -/
def capsPerNode (nax : Nat) : Nat :=
  if nax == 2 then 2 else 1

/-- Did every pick needed at the node whose first capture index is `k`
succeed? -/
def nodeOk (captures : Caps) (nax k : Nat) : Bool :=
  (captures k).isSome && (!(nax == 2) || (captures (k + 1)).isSome)

/-- Distance recorded from the capture at index `k` (zero if it failed;
only used under a success hypothesis). -/
noncomputable def axisDist (captures : Caps) (k : Nat) : ℝ :=
  match captures k with
  | none => 0
  | some (p, q) => distance p q

/-- One iteration of the inner loop body (source lines 146–163), starting at
capture index `k` and row `ctr`, at node `(c, r)`:

* `xy1, xy2 = draw_line()` — on failure the except-branches return `sizes`;
* `sizes[ctr,2] = distance(xy1, xy2)`;
* if `n_axes == 2`: second `draw_line`, on failure return the table as
  written so far, else `sizes[ctr,3] = distance(xy3, xy4)`;
* `sizes[ctr,:2] = c, r`.

`Except.error` carries the table returned by the early `return sizes`. -/
noncomputable def processNode (captures : Caps) (nax k ctr c r : Nat)
    (sizes : List (List ℝ)) : Except (List (List ℝ)) (List (List ℝ) × Nat) :=
  match captures k with
  | none => .error sizes
  | some (xy1, xy2) =>
    let s1 := setEntry sizes ctr 2 (distance xy1 xy2)
    if nax == 2 then
      match captures (k + 1) with
      | none => .error s1
      | some (xy3, xy4) =>
        let s2 := setEntry s1 ctr 3 (distance xy3 xy4)
        .ok (setEntry (setEntry s2 ctr 0 ((c : ℝ))) ctr 1 ((r : ℝ)), k + 2)
    else
      .ok (setEntry (setEntry s1 ctr 0 ((c : ℝ))) ctr 1 ((r : ℝ)), k + 1)

/-- The double loop of source lines 135–163 over the remaining grid nodes,
threading the capture index `k`, the running counter `ctr` (0-based row
index; the source initialises `ctr = -1` and increments at the top of the
body) and the table.  An `error` from `processNode` is the early
`return sizes`. -/
noncomputable def pointcountLoop (captures : Caps) (nax : Nat) :
    List (Nat × Nat) → Nat → Nat → List (List ℝ) → List (List ℝ)
  | [], _, _, sizes => sizes
  | (c, r) :: rest, k, ctr, sizes =>
    match processNode captures nax k ctr c r sizes with
    | .error s => s
    | .ok (s, k') => pointcountLoop captures nax rest k' (ctr + 1) s

/-- The whole `pointcount` session (source lines 101–171), stripped of its
display side effects: pre-allocate `n_nodes` zero rows, traverse the grid,
return the table. -/
noncomputable def pointcount (captures : Caps) (w_im h_im grid_spacing nax : Nat) :
    List (List ℝ) :=
  pointcountLoop captures nax (gridNodes grid_spacing w_im h_im) 0 0
    (List.replicate (nNodes grid_spacing w_im h_im) (zeroRow nax))

/-- The contents of a row after its node's picks all succeeded, as a
transformation of the previous row value (the source writes columns
2, then possibly 3, then 0 and 1). -/
noncomputable def writeRowSuccess (nax c r : Nat) (d1 d2 : ℝ) (old : List ℝ) : List ℝ :=
  ((if nax == 2 then (old.set 2 d1).set 3 d2 else old.set 2 d1).set 0
    ((c : ℝ))).set 1 ((r : ℝ))

/-! ### Output naming: `create_save_file_names` (source lines 174–197) -/

/-- Python `root.split('.')[0]`: everything before the first dot
(the whole string when it has no dot). -/
def splitDot (s : String) : String :=
  String.mk (s.data.takeWhile (fun ch => ch ≠ '.'))

/-- One candidate name: `root + add_text + '%i.' % ii + ext`
(source lines 183–184 and 189–190). -/
def mkName (root addText : String) (i : Nat) (ext : String) : String :=
  root ++ addText ++ toString i ++ "." ++ ext

/-- The `for ii in range(2, 1000)` loop of source lines 185–192: if either
current candidate exists, renumber both with the loop counter and continue,
else break and keep the current pair. -/
def csfnLoop (isfile : String → Bool) (root addText ext1 ext2 : String) :
    List Nat → String × String → String × String
  | [], names => names
  | ii :: rest, (sfn1, sfn2) =>
    if isfile sfn1 || isfile sfn2 then
      csfnLoop isfile root addText ext1 ext2 rest
        (mkName root addText ii ext1, mkName root addText ii ext2)
    else (sfn1, sfn2)

/-- Source lines 174–197, with the filesystem abstracted as `isfile`.
Returns the pair `(sfn1, sfn2)`, each `none` exactly when the source
returns Python `None` for it. -/
def create_save_file_names (isfile : String → Bool) (root ext1 ext2 : String)
    (addText : String := "_point_count_") : Option String × Option String :=
  if ext1 == ext2 then (none, none)
  else
    let root1 := splitDot root
    let names := csfnLoop isfile root1 addText ext1 ext2 (List.range' 2 998)
      (mkName root1 addText 1 ext1, mkName root1 addText 1 ext2)
    (if ext1 == "none" then none else some names.1,
     if ext2 == "none" then none else some names.2)

/-- Does either candidate numbered `j` exist on disk?  This is the loop's
collision test `os.path.isfile(sfn1) or os.path.isfile(sfn2)`. -/
def collide (isfile : String → Bool) (root addText ext1 ext2 : String) (j : Nat) : Bool :=
  isfile (mkName root addText j ext1) || isfile (mkName root addText j ext2)

/-- Counter-level restatement of the search loop: starting from candidate
number `cur` with `n` loop iterations left, the number the loop settles on. -/
def loopGo (isfile : String → Bool) (root addText ext1 ext2 : String) :
    Nat → Nat → Nat
  | 0, cur => cur
  | n + 1, cur =>
    if collide isfile root addText ext1 ext2 cur then
      loopGo isfile root addText ext1 ext2 n (cur + 1)
    else cur

/-! ### Concrete instances used by witnesses and counterexamples -/

/-- The spec's words for the name stem (for comparison with the code's
`root.split('.')[0]`): the extension — the part after the LAST dot — stripped
from the path. -/
def stripExtSpec (s : String) : String :=
  if s.data.contains '.' then
    String.mk ((s.data.reverse.dropWhile (fun ch => ch ≠ '.')).tail.reverse)
  else s

/-- A directory holding exactly `img_point_count_1.csv`. -/
def isfileW : String → Bool :=
  fun nm => nm == "img_point_count_1.csv"

/-- A capture oracle whose picks all succeed, always returning the segment
from (0,0) to (3,4). -/
noncomputable def capsAll : Caps :=
  fun _ => some (((0 : ℝ), (0 : ℝ)), ((3 : ℝ), (4 : ℝ)))

/-- A capture oracle whose first pick succeeds (segment (0,0)–(3,4)) and
whose every later pick raises: the axis-2 pick of the first node fails. -/
noncomputable def capsFailSecond : Caps :=
  fun k => if k = 0 then some (((0 : ℝ), (0 : ℝ)), ((3 : ℝ), (4 : ℝ))) else none

lemma distance_eval_3_4 : distance ((0 : ℝ), (0 : ℝ)) ((3 : ℝ), (4 : ℝ)) = 5 := by
  unfold distance
  rw [show ((3 : ℝ) - 0) ^ 2 + ((4 : ℝ) - 0) ^ 2 = 5 ^ 2 by norm_num]
  exact Real.sqrt_sq (by norm_num)

lemma pyRange_len (s t : Nat) (hs : 0 < s) :
    (t - s + s - 1) / s = (t - 1) / s := by
  rcases le_or_lt t s with h | h
  · have h1 : t - s = 0 := Nat.sub_eq_zero_of_le h
    rw [h1]
    have h2 : (s - 1) / s = 0 := Nat.div_eq_of_lt (by omega)
    have h3 : (t - 1) / s = 0 := Nat.div_eq_of_lt (by omega)
    simpa [h2] using h3.symm
  · congr 1
    omega

lemma pyRange_eq_map (s t : Nat) (hs : 0 < s) :
    pyRange s t s = (List.range ((t - 1) / s)).map (fun i => (i + 1) * s) := by
  have key : ∀ (n a : Nat), List.range' a n s = (List.range n).map (fun i => a + i * s) := by
    intro n
    induction n with
    | zero => intro a; simp
    | succ m ih =>
      intro a
      rw [List.range'_succ, List.range_succ_eq_map, ih (a + s)]
      simp only [List.map_cons, List.map_map]
      congr 1
      · omega
      · apply List.map_congr_left
        intro i _
        simp only [Function.comp_apply, Nat.succ_eq_add_one]
        ring
  rw [pyRange, pyRange_len s t hs, key]
  apply List.map_congr_left
  intro i _
  ring

lemma pyRange_length (s t : Nat) (hs : 0 < s) :
    (pyRange s t s).length = (t - 1) / s := by
  rw [pyRange_eq_map s t hs, List.length_map, List.length_range]

lemma gridNodes_length (s w h : Nat) (hs : 0 < s) :
    (gridNodes s w h).length = ((w - 1) / s) * ((h - 1) / s) := by
  rw [gridNodes, List.length_flatMap]
  simp only [Function.comp_def]
  have hmap : (pyRange s h s).map (fun r => ((pyRange s w s).map (fun c => (c, r))).length)
      = (pyRange s h s).map (fun _ => (w - 1) / s) := by
    apply List.map_congr_left
    intro r _
    rw [List.length_map, pyRange_length s w hs]
  rw [hmap]
  have : (pyRange s h s).map (fun _ => (w - 1) / s)
      = List.replicate (pyRange s h s).length ((w - 1) / s) := List.map_const _ _
  rw [this, List.sum_replicate, smul_eq_mul, pyRange_length s h hs]
  ring

lemma pred_div_le (s w : Nat) : (w - 1) / s ≤ w / s :=
  Nat.div_le_div_right (Nat.sub_le w 1)

lemma gridNodes_length_le (s w h : Nat) (hs : 0 < s) :
    (gridNodes s w h).length ≤ nNodes s w h := by
  rw [gridNodes_length s w h hs, nNodes]
  exact Nat.mul_le_mul (pred_div_le s w) (pred_div_le s h)

lemma pred_div_eq_of_not_dvd (s w : Nat) (hw : 0 < w) (hdvd : ¬ s ∣ w) :
    (w - 1) / s = w / s := by
  have hw1 : w - 1 + 1 = w := Nat.succ_pred_eq_of_pos hw
  have := Nat.succ_div (w - 1) s
  rw [hw1] at this
  rw [this, if_neg hdvd]
  omega

lemma getD_set_self {α : Type} (l : List α) (i : Nat) (v d : α) (h : i < l.length) :
    (l.set i v).getD i d = v := by
  induction l generalizing i with
  | nil => simp at h
  | cons a as ih =>
    cases i with
    | zero => rfl
    | succ n =>
      simp only [List.set_cons_succ, List.getD, List.get?_cons_succ]
      exact ih n (by simpa using h)

lemma getD_set_ne {α : Type} (l : List α) (i j : Nat) (v d : α) (h : i ≠ j) :
    (l.set i v).getD j d = l.getD j d := by
  induction l generalizing i j with
  | nil => simp
  | cons a as ih =>
    cases i with
    | zero =>
      cases j with
      | zero => exact absurd rfl h
      | succ m => rfl
    | succ n =>
      cases j with
      | zero => rfl
      | succ m =>
        simp only [List.set_cons_succ, List.getD, List.get?_cons_succ]
        exact ih n m (by omega)

lemma getD_replicate {α : Type} (n i : Nat) (a d : α) (h : i < n) :
    (List.replicate n a).getD i d = a := by
  induction n generalizing i with
  | zero => omega
  | succ m ih =>
    cases i with
    | zero => rfl
    | succ k =>
      simp only [List.replicate_succ, List.getD, List.get?_cons_succ]
      exact ih k (by omega)

lemma setEntry_length (t : List (List ℝ)) (i j : Nat) (v : ℝ) :
    (setEntry t i j v).length = t.length :=
  List.length_set t i _

lemma getD_setEntry_self (t : List (List ℝ)) (i j : Nat) (v : ℝ) (h : i < t.length) :
    (setEntry t i j v).getD i [] = (t.getD i []).set j v :=
  getD_set_self t i _ [] h

lemma getD_setEntry_ne (t : List (List ℝ)) (i i' j : Nat) (v : ℝ) (h : i ≠ i') :
    (setEntry t i j v).getD i' [] = t.getD i' [] :=
  getD_set_ne t i i' _ [] h

lemma rowlen_setEntry (t : List (List ℝ)) (i i' j : Nat) (v : ℝ) :
    ((setEntry t i j v).getD i' []).length = (t.getD i' []).length := by
  rcases eq_or_ne i i' with rfl | hne
  · rcases Nat.lt_or_ge i t.length with h | h
    · rw [getD_setEntry_self t i j v h, List.length_set]
    · rw [setEntry, List.set_eq_of_length_le h]
  · rw [getD_setEntry_ne t i i' j v hne]

lemma pointcountLoop_nil (captures : Caps) (nax k ctr : Nat) (sizes : List (List ℝ)) :
    pointcountLoop captures nax [] k ctr sizes = sizes := rfl

lemma pointcountLoop_cons (captures : Caps) (nax c r k ctr : Nat)
    (rest : List (Nat × Nat)) (sizes : List (List ℝ)) :
    pointcountLoop captures nax ((c, r) :: rest) k ctr sizes =
      match processNode captures nax k ctr c r sizes with
      | .error s => s
      | .ok (s, k') => pointcountLoop captures nax rest k' (ctr + 1) s := rfl

lemma processNode_ok (captures : Caps) (nax k ctr c r : Nat) (sizes : List (List ℝ))
    (h : nodeOk captures nax k = true) :
    ∃ s', processNode captures nax k ctr c r sizes = .ok (s', k + capsPerNode nax) ∧
      s'.length = sizes.length ∧
      (∀ j, j ≠ ctr → s'.getD j [] = sizes.getD j []) ∧
      (∀ j, (s'.getD j []).length = (sizes.getD j []).length) ∧
      (ctr < sizes.length → s'.getD ctr [] =
        writeRowSuccess nax c r (axisDist captures k) (axisDist captures (k + 1))
          (sizes.getD ctr [])) := by
  rw [nodeOk] at h
  cases hc : captures k with
  | none => rw [hc] at h; simp at h
  | some pq =>
    obtain ⟨p, q⟩ := pq
    rw [hc] at h
    cases hb : (nax == 2) with
    | true =>
      rw [hb] at h
      simp only [Bool.not_true, Bool.false_or, Bool.and_eq_true, Option.isSome] at h
      cases hc2 : captures (k + 1) with
      | none => rw [hc2] at h; simp at h
      | some pq2 =>
        obtain ⟨p3, q3⟩ := pq2
        refine ⟨setEntry (setEntry (setEntry (setEntry sizes ctr 2 (distance p q)) ctr 3
          (distance p3 q3)) ctr 0 ((c : ℝ))) ctr 1 ((r : ℝ)), ?_, ?_, ?_, ?_, ?_⟩
        · simp only [processNode, hc, hb, hc2, if_true]
          rw [capsPerNode, hb, if_pos rfl]
        · simp only [setEntry_length]
        · intro j hj
          simp only [getD_setEntry_ne _ _ _ _ _ (Ne.symm hj)]
        · intro j
          simp only [rowlen_setEntry]
        · intro hctr
          have l1 : ctr < (setEntry sizes ctr 2 (distance p q)).length := by
            rw [setEntry_length]; exact hctr
          have l2 : ctr < (setEntry (setEntry sizes ctr 2 (distance p q)) ctr 3
              (distance p3 q3)).length := by
            rw [setEntry_length, setEntry_length]; exact hctr
          have l3 : ctr < (setEntry (setEntry (setEntry sizes ctr 2 (distance p q)) ctr 3
              (distance p3 q3)) ctr 0 ((c : ℝ))).length := by
            rw [setEntry_length, setEntry_length, setEntry_length]; exact hctr
          rw [getD_setEntry_self _ _ _ _ l3, getD_setEntry_self _ _ _ _ l2,
            getD_setEntry_self _ _ _ _ l1, getD_setEntry_self _ _ _ _ hctr]
          rw [writeRowSuccess, hb, if_pos rfl]
          rw [axisDist, hc, axisDist, hc2]
    | false =>
      refine ⟨setEntry (setEntry (setEntry sizes ctr 2 (distance p q)) ctr 0
        ((c : ℝ))) ctr 1 ((r : ℝ)), ?_, ?_, ?_, ?_, ?_⟩
      · simp only [processNode, hc, hb, if_false, Bool.false_eq_true]
        rw [capsPerNode, hb]
        simp
      · simp only [setEntry_length]
      · intro j hj
        simp only [getD_setEntry_ne _ _ _ _ _ (Ne.symm hj)]
      · intro j
        simp only [rowlen_setEntry]
      · intro hctr
        have l1 : ctr < (setEntry sizes ctr 2 (distance p q)).length := by
          rw [setEntry_length]; exact hctr
        have l3 : ctr < (setEntry (setEntry sizes ctr 2 (distance p q)) ctr 0
            ((c : ℝ))).length := by
          rw [setEntry_length, setEntry_length]; exact hctr
        rw [getD_setEntry_self _ _ _ _ l3, getD_setEntry_self _ _ _ _ l1,
          getD_setEntry_self _ _ _ _ hctr]
        rw [writeRowSuccess, hb]
        rw [axisDist, hc]
        simp

lemma processNode_fail (captures : Caps) (nax k ctr c r : Nat) (sizes : List (List ℝ))
    (h : nodeOk captures nax k = false) :
    processNode captures nax k ctr c r sizes = .error
      (match captures k with
       | none => sizes
       | some (p, q) => setEntry sizes ctr 2 (distance p q)) := by
  cases hc : captures k with
  | none => simp only [processNode, hc]
  | some pq =>
    obtain ⟨p, q⟩ := pq
    rw [nodeOk, hc] at h
    simp only [Option.isSome_some, Bool.true_and] at h
    cases hb : (nax == 2) with
    | true =>
      rw [hb] at h
      simp only [Bool.not_true, Bool.false_or] at h
      have hc2 : captures (k + 1) = none := by
        cases hc2 : captures (k + 1) with
        | none => rfl
        | some x => rw [hc2] at h; simp at h
      simp only [processNode, hc, hb, hc2, if_true]
    | false =>
      rw [hb] at h
      simp at h

lemma pointcountLoop_length (captures : Caps) (nax : Nat) :
    ∀ (nodes : List (Nat × Nat)) (k ctr : Nat) (sizes : List (List ℝ)),
      (pointcountLoop captures nax nodes k ctr sizes).length = sizes.length := by
  intro nodes
  induction nodes with
  | nil => intro k ctr sizes; rfl
  | cons cr rest ih =>
    intro k ctr sizes
    obtain ⟨c, r⟩ := cr
    rw [pointcountLoop_cons]
    cases hpn : processNode captures nax k ctr c r sizes with
    | error s =>
      cases hcap : captures k with
      | none =>
        simp only [processNode, hcap] at hpn
        cases hpn; rfl
      | some pq =>
        obtain ⟨p, q⟩ := pq
        simp only [processNode, hcap] at hpn
        cases hb : (nax == 2) with
        | true =>
          rw [hb, if_pos rfl] at hpn
          cases hc2 : captures (k + 1) with
          | none =>
            rw [hc2] at hpn
            cases hpn
            simp only [setEntry_length]
          | some pq2 => obtain ⟨p3, q3⟩ := pq2; rw [hc2] at hpn; cases hpn
        | false =>
          rw [hb] at hpn
          simp only [Bool.false_eq_true, if_false] at hpn
          cases hpn
    | ok sk =>
      obtain ⟨s, k'⟩ := sk
      have hnode : nodeOk captures nax k = true := by
        by_contra hfalse
        rw [Bool.not_eq_true] at hfalse
        rw [processNode_fail captures nax k ctr c r sizes hfalse] at hpn
        cases hpn
      obtain ⟨s', hpn', hlen, _, _, _⟩ := processNode_ok captures nax k ctr c r sizes hnode
      rw [hpn'] at hpn
      cases hpn
      rw [ih, hlen]

lemma pointcountLoop_error_table (captures : Caps) (nax k ctr c r : Nat)
    (sizes s : List (List ℝ)) (hpn : processNode captures nax k ctr c r sizes = .error s) :
    s.length = sizes.length ∧ (∀ j, j ≠ ctr → s.getD j [] = sizes.getD j []) ∧
      (∀ j, (s.getD j []).length = (sizes.getD j []).length) := by
  cases hcap : captures k with
  | none =>
    simp only [processNode, hcap] at hpn
    cases hpn
    exact ⟨rfl, fun j _ => rfl, fun j => rfl⟩
  | some pq =>
    obtain ⟨p, q⟩ := pq
    simp only [processNode, hcap] at hpn
    cases hb : (nax == 2) with
    | true =>
      rw [hb, if_pos rfl] at hpn
      cases hc2 : captures (k + 1) with
      | none =>
        rw [hc2] at hpn
        cases hpn
        exact ⟨setEntry_length _ _ _ _,
          fun j hj => getD_setEntry_ne _ _ _ _ _ (Ne.symm hj),
          fun j => rowlen_setEntry _ _ _ _ _⟩
      | some pq2 => obtain ⟨p3, q3⟩ := pq2; rw [hc2] at hpn; cases hpn
    | false =>
      rw [hb] at hpn
      simp only [Bool.false_eq_true, if_false] at hpn
      cases hpn


lemma pointcountLoop_step_ok (captures : Caps) (nax k ctr c r : Nat)
    (rest : List (Nat × Nat)) (sizes s' : List (List ℝ))
    (hpn : processNode captures nax k ctr c r sizes = .ok (s', k + capsPerNode nax)) :
    pointcountLoop captures nax ((c, r) :: rest) k ctr sizes =
      pointcountLoop captures nax rest (k + capsPerNode nax) (ctr + 1) s' := by
  rw [pointcountLoop_cons, hpn]

lemma pointcountLoop_step_error (captures : Caps) (nax k ctr c r : Nat)
    (rest : List (Nat × Nat)) (sizes s' : List (List ℝ))
    (hpn : processNode captures nax k ctr c r sizes = .error s') :
    pointcountLoop captures nax ((c, r) :: rest) k ctr sizes = s' := by
  rw [pointcountLoop_cons, hpn]

lemma pointcountLoop_getD_lt (captures : Caps) (nax : Nat) :
    ∀ (nodes : List (Nat × Nat)) (k ctr : Nat) (sizes : List (List ℝ)) (j : Nat),
      j < ctr →
      (pointcountLoop captures nax nodes k ctr sizes).getD j [] = sizes.getD j [] := by
  intro nodes
  induction nodes with
  | nil => intro k ctr sizes j hj; rfl
  | cons cr rest ih =>
    intro k ctr sizes j hj
    obtain ⟨c, r⟩ := cr
    cases hnode : nodeOk captures nax k with
    | true =>
      obtain ⟨s', hpn, _, hne, _, _⟩ := processNode_ok captures nax k ctr c r sizes hnode
      rw [pointcountLoop_step_ok captures nax k ctr c r rest sizes s' hpn]
      rw [ih (k + capsPerNode nax) (ctr + 1) s' j (by omega)]
      exact hne j (by omega)
    | false =>
      have hpn := processNode_fail captures nax k ctr c r sizes hnode
      rw [pointcountLoop_step_error captures nax k ctr c r rest sizes _ hpn]
      cases hcap : captures k with
      | none => rfl
      | some pq =>
        obtain ⟨p, q⟩ := pq
        exact getD_setEntry_ne _ _ _ _ _ (by omega)

lemma pointcountLoop_rowlen (captures : Caps) (nax : Nat) :
    ∀ (nodes : List (Nat × Nat)) (k ctr : Nat) (sizes : List (List ℝ)) (j : Nat),
      ((pointcountLoop captures nax nodes k ctr sizes).getD j []).length
        = (sizes.getD j []).length := by
  intro nodes
  induction nodes with
  | nil => intro k ctr sizes j; rfl
  | cons cr rest ih =>
    intro k ctr sizes j
    obtain ⟨c, r⟩ := cr
    cases hnode : nodeOk captures nax k with
    | true =>
      obtain ⟨s', hpn, _, _, hrowlen, _⟩ := processNode_ok captures nax k ctr c r sizes hnode
      rw [pointcountLoop_step_ok captures nax k ctr c r rest sizes s' hpn]
      rw [ih (k + capsPerNode nax) (ctr + 1) s' j, hrowlen j]
    | false =>
      have hpn := processNode_fail captures nax k ctr c r sizes hnode
      rw [pointcountLoop_step_error captures nax k ctr c r rest sizes _ hpn]
      cases hcap : captures k with
      | none => rfl
      | some pq =>
        obtain ⟨p, q⟩ := pq
        exact rowlen_setEntry _ _ _ _ _

lemma pointcountLoop_row_done (captures : Caps) (nax : Nat) :
    ∀ (nodes : List (Nat × Nat)) (k ctr : Nat) (sizes : List (List ℝ)) (i : Nat),
      i < nodes.length →
      (∀ i', i' < i + 1 → nodeOk captures nax (k + i' * capsPerNode nax) = true) →
      ctr + nodes.length ≤ sizes.length →
      (pointcountLoop captures nax nodes k ctr sizes).getD (ctr + i) [] =
        writeRowSuccess nax (nodes.getD i (0, 0)).1 (nodes.getD i (0, 0)).2
          (axisDist captures (k + i * capsPerNode nax))
          (axisDist captures (k + i * capsPerNode nax + 1))
          (sizes.getD (ctr + i) []) := by
  intro nodes
  induction nodes with
  | nil =>
    intro k ctr sizes i hi
    simp at hi
  | cons cr rest ih =>
    intro k ctr sizes i hi hok hsz
    obtain ⟨c, r⟩ := cr
    have hok0 : nodeOk captures nax k = true := by
      have := hok 0 (by omega)
      simpa using this
    obtain ⟨s', hpn, hlen, hne, _, hctr⟩ :=
      processNode_ok captures nax k ctr c r sizes hok0
    rw [pointcountLoop_step_ok captures nax k ctr c r rest sizes s' hpn]
    cases i with
    | zero =>
      rw [pointcountLoop_getD_lt captures nax rest _ (ctr + 1) s' (ctr + 0) (by omega)]
      have hc : ctr < sizes.length := by
        simp only [List.length_cons] at hsz
        omega
      have hc0 : ctr + 0 = ctr := by omega
      rw [hc0, hctr hc]
      simp
    | succ m =>
      have harith : ctr + (m + 1) = (ctr + 1) + m := by omega
      rw [harith]
      have hrec := ih (k + capsPerNode nax) (ctr + 1) s' m
        (by simp only [List.length_cons] at hi; omega)
        (by
          intro i' hi'
          have := hok (i' + 1) (by omega)
          have harith2 : k + (i' + 1) * capsPerNode nax
              = k + capsPerNode nax + i' * capsPerNode nax := by ring
          rw [harith2] at this
          exact this)
        (by rw [hlen]; simp only [List.length_cons] at hsz; omega)
      rw [hrec]
      rw [hne ((ctr + 1) + m) (by omega)]
      have harith3 : k + capsPerNode nax + m * capsPerNode nax
          = k + (m + 1) * capsPerNode nax := by ring
      rw [harith3]
      rfl

lemma pointcountLoop_fail_after (captures : Caps) (nax : Nat) :
    ∀ (nodes : List (Nat × Nat)) (k ctr : Nat) (sizes : List (List ℝ)) (f j : Nat),
      f < nodes.length →
      (∀ i', i' < f → nodeOk captures nax (k + i' * capsPerNode nax) = true) →
      nodeOk captures nax (k + f * capsPerNode nax) = false →
      ctr + f < j →
      (pointcountLoop captures nax nodes k ctr sizes).getD j [] = sizes.getD j [] := by
  intro nodes
  induction nodes with
  | nil =>
    intro k ctr sizes f j hf
    simp at hf
  | cons cr rest ih =>
    intro k ctr sizes f j hf hpre hfail hj
    obtain ⟨c, r⟩ := cr
    cases f with
    | zero =>
      have hfail0 : nodeOk captures nax k = false := by
        have h0 : k + 0 * capsPerNode nax = k := by omega
        rw [h0] at hfail
        exact hfail
      have hpn := processNode_fail captures nax k ctr c r sizes hfail0
      rw [pointcountLoop_step_error captures nax k ctr c r rest sizes _ hpn]
      cases hcap : captures k with
      | none => rfl
      | some pq =>
        obtain ⟨p, q⟩ := pq
        exact getD_setEntry_ne _ _ _ _ _ (by omega)
    | succ m =>
      have hok0 : nodeOk captures nax k = true := by
        have := hpre 0 (by omega)
        simpa using this
      obtain ⟨s', hpn, hlen, hne, _, _⟩ := processNode_ok captures nax k ctr c r sizes hok0
      rw [pointcountLoop_step_ok captures nax k ctr c r rest sizes s' hpn]
      have hrec := ih (k + capsPerNode nax) (ctr + 1) s' m j
        (by simp only [List.length_cons] at hf; omega)
        (by
          intro i' hi'
          have := hpre (i' + 1) (by omega)
          have harith2 : k + (i' + 1) * capsPerNode nax
              = k + capsPerNode nax + i' * capsPerNode nax := by ring
          rw [harith2] at this
          exact this)
        (by
          have harith3 : k + capsPerNode nax + m * capsPerNode nax
              = k + (m + 1) * capsPerNode nax := by ring
          rw [harith3]
          exact hfail)
        (by omega)
      rw [hrec]
      exact hne j (by omega)

lemma pointcountLoop_fail_at (captures : Caps) (nax : Nat) :
    ∀ (nodes : List (Nat × Nat)) (k ctr : Nat) (sizes : List (List ℝ)) (f : Nat),
      f < nodes.length →
      (∀ i', i' < f → nodeOk captures nax (k + i' * capsPerNode nax) = true) →
      nodeOk captures nax (k + f * capsPerNode nax) = false →
      ctr + nodes.length ≤ sizes.length →
      (pointcountLoop captures nax nodes k ctr sizes).getD (ctr + f) [] =
        (match captures (k + f * capsPerNode nax) with
         | none => sizes.getD (ctr + f) []
         | some (p, q) => (sizes.getD (ctr + f) []).set 2 (distance p q)) := by
  intro nodes
  induction nodes with
  | nil =>
    intro k ctr sizes f hf
    simp at hf
  | cons cr rest ih =>
    intro k ctr sizes f hf hpre hfail hsz
    obtain ⟨c, r⟩ := cr
    cases f with
    | zero =>
      have h0 : k + 0 * capsPerNode nax = k := by omega
      rw [h0] at hfail ⊢
      have hctr : ctr < sizes.length := by
        simp only [List.length_cons] at hsz
        omega
      have hpn := processNode_fail captures nax k ctr c r sizes hfail
      rw [pointcountLoop_step_error captures nax k ctr c r rest sizes _ hpn]
      have hc0 : ctr + 0 = ctr := by omega
      rw [hc0]
      cases hcap : captures k with
      | none => rfl
      | some pq =>
        obtain ⟨p, q⟩ := pq
        exact getD_setEntry_self _ _ _ _ hctr
    | succ m =>
      have hok0 : nodeOk captures nax k = true := by
        have := hpre 0 (by omega)
        simpa using this
      obtain ⟨s', hpn, hlen, hne, _, _⟩ := processNode_ok captures nax k ctr c r sizes hok0
      rw [pointcountLoop_step_ok captures nax k ctr c r rest sizes s' hpn]
      have harith : ctr + (m + 1) = (ctr + 1) + m := by omega
      have harith3 : k + capsPerNode nax + m * capsPerNode nax
          = k + (m + 1) * capsPerNode nax := by ring
      have hrec := ih (k + capsPerNode nax) (ctr + 1) s' m
        (by simp only [List.length_cons] at hf; omega)
        (by
          intro i' hi'
          have := hpre (i' + 1) (by omega)
          have harith2 : k + (i' + 1) * capsPerNode nax
              = k + capsPerNode nax + i' * capsPerNode nax := by ring
          rw [harith2] at this
          exact this)
        (by rw [harith3]; exact hfail)
        (by rw [hlen]; simp only [List.length_cons] at hsz; omega)
      rw [harith, hrec, harith3]
      rw [hne ((ctr + 1) + m) (by omega)]

lemma csfnLoop_eq_loopGo (isfile : String → Bool) (root addText ext1 ext2 : String) :
    ∀ (n cur : Nat),
      csfnLoop isfile root addText ext1 ext2 (List.range' (cur + 1) n)
        (mkName root addText cur ext1, mkName root addText cur ext2) =
      (mkName root addText (loopGo isfile root addText ext1 ext2 n cur) ext1,
       mkName root addText (loopGo isfile root addText ext1 ext2 n cur) ext2) := by
  intro n
  induction n with
  | zero => intro cur; rfl
  | succ m ih =>
    intro cur
    rw [List.range'_succ, loopGo]
    cases hcol : collide isfile root addText ext1 ext2 cur with
    | true =>
      rw [if_pos rfl]
      have hstep : csfnLoop isfile root addText ext1 ext2
          ((cur + 1) :: List.range' (cur + 1 + 1) m)
          (mkName root addText cur ext1, mkName root addText cur ext2) =
          csfnLoop isfile root addText ext1 ext2 (List.range' (cur + 1 + 1) m)
            (mkName root addText (cur + 1) ext1, mkName root addText (cur + 1) ext2) := by
        rw [csfnLoop]
        rw [show (isfile (mkName root addText cur ext1)
          || isfile (mkName root addText cur ext2)) = true from hcol]
        simp
      rw [hstep, ih (cur + 1)]
    | false =>
      rw [if_neg (by simp)]
      rw [csfnLoop]
      rw [show (isfile (mkName root addText cur ext1)
        || isfile (mkName root addText cur ext2)) = false from hcol]
      simp

lemma create_save_file_names_eq (isfile : String → Bool) (root ext1 ext2 : String)
    (h : ¬ (ext1 == ext2) = true) :
    create_save_file_names isfile root ext1 ext2 =
      ((if ext1 == "none" then none else
         some (mkName (splitDot root) "_point_count_"
           (loopGo isfile (splitDot root) "_point_count_" ext1 ext2 998 1) ext1)),
       (if ext2 == "none" then none else
         some (mkName (splitDot root) "_point_count_"
           (loopGo isfile (splitDot root) "_point_count_" ext1 ext2 998 1) ext2))) := by
  rw [create_save_file_names, if_neg h]
  have h2 : List.range' 2 998 = List.range' (1 + 1) 998 := by norm_num
  dsimp only
  rw [h2, csfnLoop_eq_loopGo isfile (splitDot root) "_point_count_" ext1 ext2 998 1]

lemma loopGo_lower (isfile : String → Bool) (root addText ext1 ext2 : String) :
    ∀ (n cur : Nat), cur ≤ loopGo isfile root addText ext1 ext2 n cur := by
  intro n
  induction n with
  | zero => intro cur; exact le_refl cur
  | succ m ih =>
    intro cur
    rw [loopGo]
    cases hcol : collide isfile root addText ext1 ext2 cur with
    | true =>
      rw [if_pos rfl]
      exact le_trans (by omega) (ih (cur + 1))
    | false => rw [if_neg (by simp)]

lemma loopGo_upper (isfile : String → Bool) (root addText ext1 ext2 : String) :
    ∀ (n cur : Nat), loopGo isfile root addText ext1 ext2 n cur ≤ cur + n := by
  intro n
  induction n with
  | zero => intro cur; rw [loopGo]; omega
  | succ m ih =>
    intro cur
    rw [loopGo]
    cases hcol : collide isfile root addText ext1 ext2 cur with
    | true =>
      rw [if_pos rfl]
      have := ih (cur + 1)
      omega
    | false =>
      rw [if_neg (by simp)]
      omega

lemma loopGo_min (isfile : String → Bool) (root addText ext1 ext2 : String) :
    ∀ (n cur m : Nat), cur ≤ m → m ≤ cur + n →
      (∀ j, cur ≤ j → j < m → collide isfile root addText ext1 ext2 j = true) →
      collide isfile root addText ext1 ext2 m = false →
      loopGo isfile root addText ext1 ext2 n cur = m := by
  intro n
  induction n with
  | zero =>
    intro cur m h1 h2 _ _
    rw [loopGo]
    omega
  | succ k ih =>
    intro cur m h1 h2 hcoll hfree
    rw [loopGo]
    rcases eq_or_lt_of_le h1 with rfl | hlt
    · rw [if_neg (by rw [hfree]; simp)]
    · rw [if_pos (hcoll cur (le_refl cur) hlt)]
      exact ih (cur + 1) m (by omega) (by omega)
        (fun j hj1 hj2 => hcoll j (by omega) hj2) hfree

lemma loopGo_all (isfile : String → Bool) (root addText ext1 ext2 : String) :
    ∀ (n cur : Nat),
      (∀ j, cur ≤ j → j < cur + n → collide isfile root addText ext1 ext2 j = true) →
      loopGo isfile root addText ext1 ext2 n cur = cur + n := by
  intro n
  induction n with
  | zero => intro cur _; rw [loopGo]; omega
  | succ k ih =>

    intro cur hcoll
    rw [loopGo, if_pos (hcoll cur (le_refl cur) (by omega))]
    have := ih (cur + 1) (fun j hj1 hj2 => hcoll j (by omega) (by omega))
    omega

lemma flatMap_map_eq {α β γ : Type} (l : List α) (g : α → β) (F : β → List γ) :
    (l.map g).flatMap F = l.flatMap (fun x => F (g x)) := by
  induction l with
  | nil => rfl
  | cons a as ih => simp [ih]

lemma flatMap_nil_fun {α β : Type} (l : List α) :
    l.flatMap (fun _ => ([] : List β)) = [] := by
  induction l with
  | nil => rfl
  | cons a as ih => simp [ih]

lemma succ_mul_lt_iff (s k w : Nat) (hs : 0 < s) : (k + 1) * s < w ↔ k < (w - 1) / s := by
  have hz : 0 < (k + 1) * s := Nat.mul_pos (Nat.succ_pos k) hs
  constructor
  · intro hlt
    have h1 : (k + 1) * s ≤ w - 1 := by omega
    have h2 : k + 1 ≤ (w - 1) / s := (Nat.le_div_iff_mul_le hs).mpr h1
    omega
  · intro hlt
    have h1 : k + 1 ≤ (w - 1) / s := by omega
    have h2 : (k + 1) * s ≤ w - 1 := (Nat.le_div_iff_mul_le hs).mp h1
    omega

lemma writeRowSuccess_one (c r : Nat) (d1 d2 : ℝ) :
    writeRowSuccess 1 c r d1 d2 (zeroRow 1) = [(c : ℝ), (r : ℝ), d1] := rfl

lemma writeRowSuccess_two (c r : Nat) (d1 d2 : ℝ) :
    writeRowSuccess 2 c r d1 d2 (zeroRow 2) = [(c : ℝ), (r : ℝ), d1, d2] := rfl

/-! ### Claim C7 — `distance` is a pure, symmetric, non-negative Euclidean
distance -/

/-- C7: `distance` returns the non-negative Euclidean distance between its two
2-D points: `distance((0,0),(3,4)) = 5`, `distance(p,p) = 0`, and
`distance(a,b) = distance(b,a)` for all points. -/
theorem claim_distance_props :
    distance ((0 : ℝ), (0 : ℝ)) ((3 : ℝ), (4 : ℝ)) = 5 ∧
    (∀ p : Point, distance p p = 0) ∧
    (∀ a b : Point, distance a b = distance b a) ∧
    (∀ a b : Point, 0 ≤ distance a b) := by
  refine ⟨distance_eval_3_4, ?_, ?_, ?_⟩
  · intro p
    unfold distance
    simp
  · intro a b
    unfold distance
    congr 1
    ring
  · intro a b
    exact Real.sqrt_nonneg _

/-! ### Claim C1 — visited-node count versus the pre-allocated row count -/

/-- C1 as stated is false: with spacing 100 on a 100×100 image the traversal
visits no node at all, while `floor(w/spacing)*floor(h/spacing) = 1` row is
pre-allocated. -/
theorem claim_grid_count_counterexample :
    (gridNodes 100 100 100).length ≠ nNodes 100 100 100 := by decide

/-- C1 amended: the traversal visits exactly
`floor((w-1)/spacing) * floor((h-1)/spacing)` grid nodes; this never exceeds
the pre-allocated `floor(w/spacing) * floor(h/spacing)` and equals it
whenever the spacing divides neither image dimension. -/
theorem claim_grid_count_amended (s w h : Nat) (hs : 0 < s) (hw : 0 < w) (hh : 0 < h) :
    (gridNodes s w h).length = ((w - 1) / s) * ((h - 1) / s) ∧
    (gridNodes s w h).length ≤ nNodes s w h ∧
    (¬ s ∣ w → ¬ s ∣ h → (gridNodes s w h).length = nNodes s w h) := by
  refine ⟨gridNodes_length s w h hs, gridNodes_length_le s w h hs, ?_⟩
  intro hdw hdh
  rw [gridNodes_length s w h hs, nNodes, pred_div_eq_of_not_dvd s w hw hdw,
    pred_div_eq_of_not_dvd s h hh hdh]

/-- Witness for C1 amended at the spec's 350×250 image with spacing 100. -/
theorem claim_grid_count_amended_witness :
    0 < 100 ∧ 0 < 350 ∧ 0 < 250 ∧
    ((gridNodes 100 350 250).length = ((350 - 1) / 100) * ((250 - 1) / 100) ∧
     (gridNodes 100 350 250).length ≤ nNodes 100 350 250 ∧
     (¬ 100 ∣ 350 → ¬ 100 ∣ 250 → (gridNodes 100 350 250).length = nNodes 100 350 250)) :=
  ⟨by decide, by decide, by decide,
    claim_grid_count_amended 100 350 250 (by decide) (by decide) (by decide)⟩

/-! ### Claim C9 — every row index used by the loop is within the allocation -/

/-- C9: the loop visits `floor((w-1)/s) * floor((h-1)/s)` nodes and every
0-based row index it uses (one per visited node) is strictly below the
allocated `floor(w/s) * floor(h/s)` rows, so no table write is out of
bounds. -/
theorem claim_no_oob_writes (s w h : Nat) (hs : 0 < s) (hw : 0 < w) (hh : 0 < h) :
    (gridNodes s w h).length = ((w - 1) / s) * ((h - 1) / s) ∧
    (∀ i, i < (gridNodes s w h).length → i < nNodes s w h) := by
  refine ⟨gridNodes_length s w h hs, ?_⟩
  intro i hi
  exact lt_of_lt_of_le hi (gridNodes_length_le s w h hs)

/-- Witness for C9 at the spec's 350×250 image with spacing 100: 6 visited
nodes, 6 allocated rows. -/
theorem claim_no_oob_writes_witness :
    0 < 100 ∧ 0 < 350 ∧ 0 < 250 ∧ (gridNodes 100 350 250).length = 6 ∧
    nNodes 100 350 250 = 6 ∧
    ((gridNodes 100 350 250).length = ((350 - 1) / 100) * ((250 - 1) / 100) ∧
     (∀ i, i < (gridNodes 100 350 250).length → i < nNodes 100 350 250)) :=
  ⟨by decide, by decide, by decide, by decide, by decide,
    claim_no_oob_writes 100 350 250 (by decide) (by decide) (by decide)⟩

/-! ### Claim C3 — traversal order and membership -/

lemma gridNodes_eq_ranges (s w h : Nat) (hs : 0 < s) :
    gridNodes s w h =
      (List.range ((h - 1) / s)).flatMap (fun j =>
        (List.range ((w - 1) / s)).map (fun i => ((i + 1) * s, (j + 1) * s))) := by
  rw [gridNodes, pyRange_eq_map s h hs, pyRange_eq_map s w hs,
    flatMap_map_eq (List.range ((h - 1) / s)) (fun j => (j + 1) * s)
      (fun r => ((List.range ((w - 1) / s)).map (fun i => (i + 1) * s)).map
        (fun c => (c, r)))]
  congr 1
  funext j
  rw [List.map_map]
  rfl

lemma mem_gridNodes_iff (s w h : Nat) (hs : 0 < s) (p : Nat × Nat) :
    p ∈ gridNodes s w h ↔
      ((∃ i, 1 ≤ i ∧ p.1 = i * s) ∧ p.1 < w ∧
       (∃ j, 1 ≤ j ∧ p.2 = j * s) ∧ p.2 < h) := by
  rw [gridNodes_eq_ranges s w h hs, List.mem_flatMap]
  constructor
  · rintro ⟨j, hj, hp⟩
    rw [List.mem_range] at hj
    rw [List.mem_map] at hp
    obtain ⟨i, hi, rfl⟩ := hp
    rw [List.mem_range] at hi
    refine ⟨⟨i + 1, by omega, rfl⟩, ?_, ⟨j + 1, by omega, rfl⟩, ?_⟩
    · exact (succ_mul_lt_iff s i w hs).mpr hi
    · exact (succ_mul_lt_iff s j h hs).mpr hj
  · rintro ⟨⟨i, hi1, hpx⟩, hxw, ⟨j, hj1, hpy⟩, hyh⟩
    obtain ⟨x, y⟩ := p
    simp only at hpx hpy hxw hyh
    subst hpx
    subst hpy
    refine ⟨j - 1, ?_, ?_⟩
    · rw [List.mem_range]
      have hj : (j - 1 + 1) * s < h := by
        have : j - 1 + 1 = j := by omega
        rw [this]
        exact hyh
      exact (succ_mul_lt_iff s (j - 1) h hs).mp hj
    · rw [List.mem_map]
      refine ⟨i - 1, ?_, ?_⟩
      · rw [List.mem_range]
        have hi : (i - 1 + 1) * s < w := by
          have : i - 1 + 1 = i := by omega
          rw [this]
          exact hxw
        exact (succ_mul_lt_iff s (i - 1) w hs).mp hi
      · have h1 : i - 1 + 1 = i := by omega
        have h2 : j - 1 + 1 = j := by omega
        rw [h1, h2]

lemma gridNodes_empty_of_min_le (s w h : Nat) (hs : 0 < s) (hmin : min w h ≤ s) :
    gridNodes s w h = [] := by
  rw [gridNodes_eq_ranges s w h hs]
  rcases min_le_iff.mp hmin with hws | hhs
  · have hc : (w - 1) / s = 0 := Nat.div_eq_of_lt (by omega)
    rw [hc]
    simp only [List.range_zero, List.map_nil]
    exact flatMap_nil_fun _
  · have hc : (h - 1) / s = 0 := Nat.div_eq_of_lt (by omega)
    rw [hc]
    rfl

/-- C3: the traversal enumerates nodes `(x, y)` with `y` ranging over the
positive multiples of the spacing strictly below the image height (outer
loop) and `x` over the positive multiples strictly below the width (inner
loop) — row-major, coordinate 0 excluded — and is empty whenever
`spacing ≥ min(width, height)`. -/
theorem claim_traversal_order (s w h : Nat) (hs : 0 < s) :
    gridNodes s w h =
      (List.range ((h - 1) / s)).flatMap (fun j =>
        (List.range ((w - 1) / s)).map (fun i => ((i + 1) * s, (j + 1) * s))) ∧
    (∀ p : Nat × Nat, p ∈ gridNodes s w h ↔
      ((∃ i, 1 ≤ i ∧ p.1 = i * s) ∧ p.1 < w ∧
       (∃ j, 1 ≤ j ∧ p.2 = j * s) ∧ p.2 < h)) ∧
    (min w h ≤ s → gridNodes s w h = []) :=
  ⟨gridNodes_eq_ranges s w h hs, mem_gridNodes_iff s w h hs,
    gridNodes_empty_of_min_le s w h hs⟩

/-- Witness for C3: a 350×250 image with spacing 100 enumerates exactly the
six nodes of the spec's example, in that order. -/
theorem claim_traversal_order_witness :
    gridNodes 100 350 250 =
      [(100, 100), (200, 100), (300, 100), (100, 200), (200, 200), (300, 200)] ∧
    0 < 100 ∧
    (gridNodes 100 350 250 =
      (List.range ((250 - 1) / 100)).flatMap (fun j =>
        (List.range ((350 - 1) / 100)).map (fun i => ((i + 1) * 100, (j + 1) * 100))) ∧
    (∀ p : Nat × Nat, p ∈ gridNodes 100 350 250 ↔
      ((∃ i, 1 ≤ i ∧ p.1 = i * 100) ∧ p.1 < 350 ∧
       (∃ j, 1 ≤ j ∧ p.2 = j * 100) ∧ p.2 < 250)) ∧
    (min 350 250 ≤ 100 → gridNodes 100 350 250 = [])) :=
  ⟨by decide, by decide, claim_traversal_order 100 350 250 (by decide)⟩

/-! ### Claim C8 — identical extensions and the "none" sentinel -/

/-- C8: `create_save_file_names` returns `(None, None)` whenever the two
requested extensions are identical, and returns `None` for a target whose
extension is the sentinel "none" while still producing a name for the other
target. -/
theorem claim_name_sentinels (isfile : String → Bool) (root ext1 ext2 : String) :
    (ext1 = ext2 → create_save_file_names isfile root ext1 ext2 = (none, none)) ∧
    (ext1 = "none" → ext2 ≠ "none" →
      (create_save_file_names isfile root ext1 ext2).1 = none ∧
      ∃ nm, (create_save_file_names isfile root ext1 ext2).2 = some nm) ∧
    (ext2 = "none" → ext1 ≠ "none" →
      (create_save_file_names isfile root ext1 ext2).2 = none ∧
      ∃ nm, (create_save_file_names isfile root ext1 ext2).1 = some nm) := by
  refine ⟨?_, ?_, ?_⟩
  · intro hid
    rw [create_save_file_names, if_pos (by rw [hid]; exact beq_self_eq_true ext2)]
  · intro h1 h2
    have hne : ¬ (ext1 == ext2) = true := by
      rw [beq_iff_eq]
      intro hc
      exact h2 (hc ▸ h1)
    rw [create_save_file_names_eq isfile root ext1 ext2 hne]
    dsimp only
    constructor
    · rw [if_pos (show (ext1 == "none") = true by rw [beq_iff_eq]; exact h1)]
    · rw [if_neg (show ¬ (ext2 == "none") = true by rw [beq_iff_eq]; exact h2)]
      exact ⟨_, rfl⟩
  · intro h1 h2
    have hne : ¬ (ext1 == ext2) = true := by
      rw [beq_iff_eq]
      intro hc
      exact h2 (hc.symm ▸ h1)
    rw [create_save_file_names_eq isfile root ext1 ext2 hne]
    dsimp only
    constructor
    · rw [if_pos (show (ext2 == "none") = true by rw [beq_iff_eq]; exact h1)]
    · rw [if_neg (show ¬ (ext1 == "none") = true by rw [beq_iff_eq]; exact h2)]
      exact ⟨_, rfl⟩

/-- Witness for C8: identical extensions give `(none, none)`; a "none" first
extension gives no first name but a real second name. -/
theorem claim_name_sentinels_witness :
    create_save_file_names (fun _ => false) "img.tif" "csv" "csv" = (none, none) ∧
    (create_save_file_names (fun _ => false) "img.tif" "none" "csv").1 = none ∧
    (∃ nm, (create_save_file_names (fun _ => false) "img.tif" "none" "csv").2 = some nm) := by
  refine ⟨(claim_name_sentinels (fun _ => false) "img.tif" "csv" "csv").1 rfl, ?_, ?_⟩
  · exact ((claim_name_sentinels (fun _ => false) "img.tif" "none" "csv").2.1 rfl
      (by decide)).1
  · exact ((claim_name_sentinels (fun _ => false) "img.tif" "none" "csv").2.1 rfl
      (by decide)).2

/-! ### Claim C6 — the two counters stay synchronized -/

/-- C6: for every filesystem state and distinct non-"none" extensions, the
two returned names carry the same counter `m`: the least candidate number at
which NEITHER name exists, both counters having been advanced together
whenever either candidate collided. -/
theorem claim_paired_names_sync (isfile : String → Bool) (root ext1 ext2 : String)
    (m : Nat) (h12 : ext1 ≠ ext2) (h1n : ext1 ≠ "none") (h2n : ext2 ≠ "none")
    (hm1 : 1 ≤ m) (hm2 : m ≤ 999)
    (hfree : collide isfile (splitDot root) "_point_count_" ext1 ext2 m = false)
    (hcoll : ∀ j, j < m → 1 ≤ j →
      collide isfile (splitDot root) "_point_count_" ext1 ext2 j = true) :
    create_save_file_names isfile root ext1 ext2 =
      (some (mkName (splitDot root) "_point_count_" m ext1),
       some (mkName (splitDot root) "_point_count_" m ext2)) := by
  have hne : ¬ (ext1 == ext2) = true := by rw [beq_iff_eq]; exact h12
  rw [create_save_file_names_eq isfile root ext1 ext2 hne]
  have hk : loopGo isfile (splitDot root) "_point_count_" ext1 ext2 998 1 = m :=
    loopGo_min isfile (splitDot root) "_point_count_" ext1 ext2 998 1 m hm1 (by omega)
      (fun j hj1 hj2 => hcoll j hj2 hj1) hfree
  rw [hk, if_neg (by rw [beq_iff_eq]; exact h1n), if_neg (by rw [beq_iff_eq]; exact h2n)]

/-- Witness for C6, the spec's own example: `img_point_count_1.csv` exists
but `img_point_count_1.png` does not; both names still advance together to
counter 2. -/
theorem claim_paired_names_sync_witness :
    ("csv" : String) ≠ "png" ∧
    isfileW "img_point_count_1.csv" = true ∧
    isfileW "img_point_count_1.png" = false ∧
    collide isfileW (splitDot "img.tif") "_point_count_" "csv" "png" 2 = false ∧
    (∀ j, j < 2 → 1 ≤ j →
      collide isfileW (splitDot "img.tif") "_point_count_" "csv" "png" j = true) ∧
    create_save_file_names isfileW "img.tif" "csv" "png" =
      (some "img_point_count_2.csv", some "img_point_count_2.png") := by
  refine ⟨by decide, by decide, by decide, by decide, by decide, ?_⟩
  have h := claim_paired_names_sync isfileW "img.tif" "csv" "png" 2
    (by decide) (by decide) (by decide) (by decide) (by decide) (by decide) (by decide)
  have h1 : mkName (splitDot "img.tif") "_point_count_" 2 "csv"
      = "img_point_count_2.csv" := by decide
  have h2 : mkName (splitDot "img.tif") "_point_count_" 2 "png"
      = "img_point_count_2.png" := by decide
  rw [h1, h2] at h
  exact h

/-! ### Claim C5 — the single-target naming contract -/

/-- C5 as stated is false: the code's `root.split('.')[0]` strips everything
from the FIRST dot onward, not just the extension.  For the base path
`a.b.tif` the claim predicts the stem `a.b` (extension `.tif` stripped), but
the code produces `a_point_count_1.csv`. -/
theorem claim_unique_name_counterexample :
    (create_save_file_names (fun _ => false) "a.b.tif" "csv" "none").1 =
      some "a_point_count_1.csv" ∧
    stripExtSpec "a.b.tif" ++ "_point_count_" ++ toString 1 ++ "." ++ "csv"
      = "a.b_point_count_1.csv" ∧
    ("a_point_count_1.csv" : String) ≠ "a.b_point_count_1.csv" := by
  refine ⟨by decide, by decide, by decide⟩

/-- C5 amended: the candidate stem is the base path with everything from its
first dot onward stripped (not just the extension); the rest of the contract
holds: infix `_point_count_`, a counter starting at 1, a dot and the
requested extension, the counter advancing past every candidate that exists
until a free one is found (within the bounded search).  Stated for the
single-target use (second extension "none", whose dummy candidates do not
exist on disk). -/
theorem claim_unique_name_amended (isfile : String → Bool) (root ext : String)
    (m : Nat) (hext : ext ≠ "none") (hm1 : 1 ≤ m) (hm2 : m ≤ 999)
    (hnone : ∀ j, j < m + 1 → 1 ≤ j →
      isfile (mkName (splitDot root) "_point_count_" j "none") = false)
    (hfree : isfile (mkName (splitDot root) "_point_count_" m ext) = false)
    (hcoll : ∀ j, j < m → 1 ≤ j →
      isfile (mkName (splitDot root) "_point_count_" j ext) = true) :
    create_save_file_names isfile root ext "none" =
      (some (mkName (splitDot root) "_point_count_" m ext), none) := by
  have hne : ¬ (ext == "none") = true := by rw [beq_iff_eq]; exact hext
  rw [create_save_file_names_eq isfile root ext "none" hne]
  have hfree' : collide isfile (splitDot root) "_point_count_" ext "none" m = false := by
    rw [collide, hfree, hnone m (by omega) hm1]
    rfl
  have hcoll' : ∀ j, 1 ≤ j → j < m →
      collide isfile (splitDot root) "_point_count_" ext "none" j = true := by
    intro j hj1 hj2
    rw [collide, hcoll j hj2 hj1]
    rfl
  have hk : loopGo isfile (splitDot root) "_point_count_" ext "none" 998 1 = m :=
    loopGo_min isfile (splitDot root) "_point_count_" ext "none" 998 1 m hm1 (by omega)
      hcoll' hfree'
  rw [hk, if_neg hne, if_pos (beq_self_eq_true "none")]

/-- Witness for C5 amended, the spec's example: in a directory holding
`img_point_count_1.csv`, base `img.tif` with extension `csv` yields
`img_point_count_2.csv` (and no second name for extension "none"). -/
theorem claim_unique_name_amended_witness :
    ("csv" : String) ≠ "none" ∧
    (∀ j, j < 3 → 1 ≤ j →
      isfileW (mkName (splitDot "img.tif") "_point_count_" j "none") = false) ∧
    isfileW (mkName (splitDot "img.tif") "_point_count_" 2 "csv") = false ∧
    (∀ j, j < 2 → 1 ≤ j →
      isfileW (mkName (splitDot "img.tif") "_point_count_" j "csv") = true) ∧
    create_save_file_names isfileW "img.tif" "csv" "none" =
      (some "img_point_count_2.csv", none) := by
  refine ⟨by decide, by decide, by decide, by decide, ?_⟩
  have h := claim_unique_name_amended isfileW "img.tif" "csv" 2
    (by decide) (by decide) (by decide) (by decide) (by decide) (by decide)
  have h1 : mkName (splitDot "img.tif") "_point_count_" 2 "csv"
      = "img_point_count_2.csv" := by decide
  rw [h1] at h
  exact h

/-! ### Claim C10 — the bounded search caps the counter at 999 and the last
candidate is returned unchecked -/

/-- C10: every name returned carries a counter between 1 and 999; and there
is a filesystem state (every candidate exists) in which the returned name is
a file that already exists on disk — the candidate assigned on the last
iteration is returned without a further existence check. -/
theorem claim_counter_cap (isfile : String → Bool) (root ext1 ext2 nm : String)
    (h12 : ext1 ≠ ext2)
    (hsome : (create_save_file_names isfile root ext1 ext2).1 = some nm) :
    (∃ k, 1 ≤ k ∧ k ≤ 999 ∧ nm = mkName (splitDot root) "_point_count_" k ext1) ∧
    (∃ f : String → Bool,
      (∀ j, j < 1000 → 1 ≤ j → f (mkName "img" "_point_count_" j "csv") = true) ∧
      ∃ t, (create_save_file_names f "img" "csv" "png").1 = some t ∧ f t = true) := by
  constructor
  · have hne : ¬ (ext1 == ext2) = true := by rw [beq_iff_eq]; exact h12
    rw [create_save_file_names_eq isfile root ext1 ext2 hne] at hsome
    dsimp only at hsome
    by_cases h1n : (ext1 == "none") = true
    · rw [if_pos h1n] at hsome
      exact absurd hsome (by simp)
    · rw [if_neg h1n] at hsome
      refine ⟨loopGo isfile (splitDot root) "_point_count_" ext1 ext2 998 1,
        loopGo_lower isfile (splitDot root) "_point_count_" ext1 ext2 998 1, ?_, ?_⟩
      · have := loopGo_upper isfile (splitDot root) "_point_count_" ext1 ext2 998 1
        omega
      · exact (Option.some_inj.mp hsome).symm
  · refine ⟨fun _ => true, fun j _ _ => rfl,
      mkName (splitDot "img") "_point_count_" 999 "csv", ?_, rfl⟩
    have hne : ¬ (("csv" : String) == "png") = true := by decide
    rw [create_save_file_names_eq (fun _ => true) "img" "csv" "png" hne]
    dsimp only
    have hall : loopGo (fun _ => true) (splitDot "img") "_point_count_" "csv" "png" 998 1
        = 999 := by
      have h := loopGo_all (fun _ => true) (splitDot "img") "_point_count_" "csv" "png"
        998 1 (fun j _ _ => rfl)
      omega
    rw [hall, if_neg (show ¬ (("csv" : String) == "none") = true by decide)]

/-- Witness for C10: with an empty directory the first name returned is the
counter-1 candidate, whose counter indeed lies in 1..999. -/
theorem claim_counter_cap_witness :
    ("csv" : String) ≠ "png" ∧
    (create_save_file_names (fun _ => false) "img.tif" "csv" "png").1 =
      some "img_point_count_1.csv" ∧
    ((∃ k, 1 ≤ k ∧ k ≤ 999 ∧
      "img_point_count_1.csv" = mkName (splitDot "img.tif") "_point_count_" k "csv") ∧
    (∃ f : String → Bool,
      (∀ j, j < 1000 → 1 ≤ j → f (mkName "img" "_point_count_" j "csv") = true) ∧
      ∃ t, (create_save_file_names f "img" "csv" "png").1 = some t ∧ f t = true)) :=
  ⟨by decide, by decide,
    claim_counter_cap (fun _ => false) "img.tif" "csv" "png" "img_point_count_1.csv"
      (by decide) (by decide)⟩

/-! ### Claim C4 — row contents after a successful node -/

/-- C4: when every pick up to and including the i-th visited node succeeds,
row i of the result table holds `(x_i, y_i, d1)` for one axis and
`(x_i, y_i, d1, d2)` for two axes, where the distances come from that node's
picks; the running counter advances by exactly one row per node. -/
theorem claim_row_contents (captures : Caps) (s w h nax i : Nat)
    (hs : 0 < s) (hnax : nax = 1 ∨ nax = 2)
    (hi : i < (gridNodes s w h).length)
    (hok : ∀ i', i' < i + 1 → nodeOk captures nax (i' * capsPerNode nax) = true) :
    (pointcount captures w h s nax).getD i [] =
      (if nax = 2 then
        [((((gridNodes s w h).getD i (0, 0)).1 : ℝ)),
         ((((gridNodes s w h).getD i (0, 0)).2 : ℝ)),
         axisDist captures (i * capsPerNode nax),
         axisDist captures (i * capsPerNode nax + 1)]
       else
        [((((gridNodes s w h).getD i (0, 0)).1 : ℝ)),
         ((((gridNodes s w h).getD i (0, 0)).2 : ℝ)),
         axisDist captures (i * capsPerNode nax)]) := by
  have hlenle := gridNodes_length_le s w h hs
  have hrow := pointcountLoop_row_done captures nax (gridNodes s w h) 0 0
      (List.replicate (nNodes s w h) (zeroRow nax)) i hi
      (by intro i' hi'; have := hok i' hi'; simpa using this)
      (by rw [List.length_replicate]; omega)
  simp only [Nat.zero_add] at hrow
  rw [pointcount, hrow, getD_replicate _ _ _ _ (by omega)]
  rcases hnax with rfl | rfl
  · rw [if_neg (by omega), writeRowSuccess_one]
  · rw [if_pos rfl, writeRowSuccess_two]

/-- Witness for C4: on the 350×250 image with spacing 100 and two axes, with
every pick returning the segment (0,0)–(3,4), row 1 holds node (200, 100)
and the two recorded distances. -/
theorem claim_row_contents_witness :
    0 < 100 ∧ (1 : Nat) < (gridNodes 100 350 250).length ∧
    (∀ i', i' < 1 + 1 → nodeOk capsAll 2 (i' * capsPerNode 2) = true) ∧
    (pointcount capsAll 350 250 100 2).getD 1 [] =
      (if (2 : Nat) = 2 then
        [((((gridNodes 100 350 250).getD 1 (0, 0)).1 : ℝ)),
         ((((gridNodes 100 350 250).getD 1 (0, 0)).2 : ℝ)),
         axisDist capsAll (1 * capsPerNode 2),
         axisDist capsAll (1 * capsPerNode 2 + 1)]
       else
        [((((gridNodes 100 350 250).getD 1 (0, 0)).1 : ℝ)),
         ((((gridNodes 100 350 250).getD 1 (0, 0)).2 : ℝ)),
         axisDist capsAll (1 * capsPerNode 2)]) :=
  ⟨by decide, by decide, by decide,
    claim_row_contents capsAll 100 350 250 2 1 (by decide) (Or.inr rfl)
      (by decide) (by decide)⟩

/-! ### Claim C2 — abort with partial results -/

/-- C2 as stated is false in one corner: when the axis-1 pick of a node
succeeds but its axis-2 pick fails, the failing node's row is not all-zero —
its third column already holds the axis-1 distance (here 5) although the
node was never completed and its x, y columns are still zero. -/
theorem claim_abort_partial_counterexample :
    nodeOk capsFailSecond 2 0 = false ∧
    (pointcount capsFailSecond 150 150 100 2).getD 0 [] ≠ zeroRow 2 := by
  constructor
  · decide
  · have hat := pointcountLoop_fail_at capsFailSecond 2 (gridNodes 100 150 150) 0 0
        (List.replicate (nNodes 100 150 150) (zeroRow 2)) 0 (by decide)
        (by intro i' hi'; exact absurd hi' (by omega))
        (by decide)
        (by decide)
    simp only [Nat.zero_add] at hat
    rw [pointcount, hat]
    have hcap : capsFailSecond (0 * capsPerNode 2) =
        some (((0 : ℝ), (0 : ℝ)), ((3 : ℝ), (4 : ℝ))) := rfl
    rw [hcap]
    dsimp only
    rw [getD_replicate _ _ _ _ (by decide)]
    intro hEq
    have hz : zeroRow 2 = [0, 0, 0, 0] := rfl
    rw [hz] at hEq
    have hset : ([(0 : ℝ), 0, 0, 0].set 2 (distance ((0 : ℝ), (0 : ℝ)) ((3 : ℝ), (4 : ℝ))))
        = [0, 0, distance ((0 : ℝ), (0 : ℝ)) ((3 : ℝ), (4 : ℝ)), 0] := rfl
    rw [hset] at hEq
    have hd : distance ((0 : ℝ), (0 : ℝ)) ((3 : ℝ), (4 : ℝ)) = 0 := by
      have := List.cons.inj hEq
      have := List.cons.inj this.2
      have := List.cons.inj this.2
      exact this.1
    rw [distance_eval_3_4] at hd
    norm_num at hd

/-- C2 amended: on the first failing pick the session returns immediately a
table of the full pre-allocated shape (`n_nodes` rows, `2 + n_axes` columns);
rows of completed nodes hold their recorded values; every row strictly after
the failing node is all-zero; the failing node's own row is all-zero when its
axis-1 pick failed, and otherwise (axis-2 pick failed) holds the recorded
axis-1 distance in column 2 with its x, y columns still zero. -/
theorem claim_abort_partial_amended (captures : Caps) (s w h nax f : Nat)
    (hs : 0 < s) (hf : f < (gridNodes s w h).length)
    (hpre : ∀ i', i' < f → nodeOk captures nax (i' * capsPerNode nax) = true)
    (hfail : nodeOk captures nax (f * capsPerNode nax) = false) :
    (pointcount captures w h s nax).length = nNodes s w h ∧
    (∀ j, j < nNodes s w h →
      ((pointcount captures w h s nax).getD j []).length = 2 + nax) ∧
    (∀ i, i < f → (pointcount captures w h s nax).getD i [] =
      writeRowSuccess nax ((gridNodes s w h).getD i (0, 0)).1
        ((gridNodes s w h).getD i (0, 0)).2
        (axisDist captures (i * capsPerNode nax))
        (axisDist captures (i * capsPerNode nax + 1)) (zeroRow nax)) ∧
    ((pointcount captures w h s nax).getD f [] =
      (match captures (f * capsPerNode nax) with
       | none => zeroRow nax
       | some (p, q) => (zeroRow nax).set 2 (distance p q))) ∧
    (∀ j, f < j → j < nNodes s w h →
      (pointcount captures w h s nax).getD j [] = zeroRow nax) := by
  have hlenle := gridNodes_length_le s w h hs
  refine ⟨?_, ?_, ?_, ?_, ?_⟩
  · rw [pointcount, pointcountLoop_length, List.length_replicate]
  · intro j hj
    rw [pointcount, pointcountLoop_rowlen, getD_replicate _ _ _ _ hj, zeroRow,
      List.length_replicate]
  · intro i hi
    have hrow := pointcountLoop_row_done captures nax (gridNodes s w h) 0 0
        (List.replicate (nNodes s w h) (zeroRow nax)) i (by omega)
        (by intro i' hi'; have := hpre i' (by omega); simpa using this)
        (by rw [List.length_replicate]; omega)
    simp only [Nat.zero_add] at hrow
    rw [pointcount, hrow, getD_replicate _ _ _ _ (by omega)]
  · have hat := pointcountLoop_fail_at captures nax (gridNodes s w h) 0 0
        (List.replicate (nNodes s w h) (zeroRow nax)) f hf
        (by intro i' hi'; have := hpre i' hi'; simpa using this)
        (by simpa using hfail)
        (by rw [List.length_replicate]; omega)
    simp only [Nat.zero_add] at hat
    rw [pointcount, hat]
    cases hcap : captures (f * capsPerNode nax) with
    | none =>
      dsimp only
      rw [getD_replicate _ _ _ _ (by omega)]
    | some pq =>
      obtain ⟨p, q⟩ := pq
      dsimp only
      rw [getD_replicate _ _ _ _ (by omega)]
  · intro j hj1 hj2
    have haft := pointcountLoop_fail_after captures nax (gridNodes s w h) 0 0
        (List.replicate (nNodes s w h) (zeroRow nax)) f j hf
        (by intro i' hi'; have := hpre i' hi'; simpa using this)
        (by simpa using hfail)
        (by omega)
    rw [pointcount, haft, getD_replicate _ _ _ _ hj2]

/-- Witness for C2 amended: on a 150×150 image (one node) with two axes,
the axis-2 pick of node 0 fails and the returned table still has its full
pre-allocated shape. -/
theorem claim_abort_partial_amended_witness :
    0 < 100 ∧ (0 : Nat) < (gridNodes 100 150 150).length ∧
    nodeOk capsFailSecond 2 (0 * capsPerNode 2) = false ∧
    (pointcount capsFailSecond 150 150 100 2).length = nNodes 100 150 150 :=
  ⟨by decide, by decide, by decide,
    (claim_abort_partial_amended capsFailSecond 100 150 150 2 0 (by decide) (by decide)
      (by intro i' hi'; exact absurd hi' (by omega)) (by decide)).1⟩
